import Mathlib

/-!
Verification development for the template rendering engine in
`src/lib/template-processor.ts` (the coherent revision at lines 1296-2215).

The engine's dynamically-typed JavaScript values are embedded as the inductive
type `JsVal` (acyclic object graphs; a separate heap-based model below handles
cyclic graphs).  Functions are translated from the source; the handful of
JavaScript built-ins the engine calls (`String(..)`, `Number(..)`, `Date`,
`JSON.stringify`, `Intl.NumberFormat`) are modelled at the level of fidelity
the engine exercises, each with a comment stating the modelling choices.
-/

/-- Result type of the value formatter: the source function
`formatValueByType` is typed `string | number`. -/
inductive StrNum where
  | s (v : String)
  | n (v : Int)
deriving Repr, DecidableEq

/-- `true` iff the formatter result is a string. -/
def StrNum.isStr : StrNum → Bool
  | .s _ => true
  | .n _ => false

/-- JavaScript `String(x)` applied to a `string | number` value
(numbers in the modelled domain are integers, printed in decimal). -/
def strOfStrNum : StrNum → String
  | .s v => v
  | .n v => toString v

/-- Embedding of the JavaScript values the engine manipulates: primitives,
arrays and plain objects (insertion-ordered property lists).  This models
acyclic values only; the heap model `HVal`/`HeapNode` below covers cycles. -/
inductive JsVal where
  | vNull
  | vUndef
  | vBool (b : Bool)
  | vNum (n : Int)
  | vStr (s : String)
  | vArr (elems : List JsVal)
  | vObj (props : List (String × JsVal))

/-- Property lookup on an object: `none` models an absent property
(JS property keys are unique; lookup returns the first match). -/
def getProp : List (String × JsVal) → String → Option JsVal
  | [], _ => none
  | (k0, v0) :: rest, k => if k0 == k then some v0 else getProp rest k

/-- JS `k in obj`: property presence, even when the stored value is
`undefined`. -/
def hasProp (props : List (String × JsVal)) (k : String) : Bool :=
  (getProp props k).isSome

/-- JS property access `obj.k`: an absent property reads as `undefined`. -/
def propOr (props : List (String × JsVal)) (k : String) : JsVal :=
  (getProp props k).getD JsVal.vUndef

/-- `true` iff the value is JS `undefined`. -/
def isUndef : JsVal → Bool
  | .vUndef => true
  | _ => false

/-- JS object property assignment `obj[k] = v`: overwrite in place if the key
exists, else append (insertion order preserved).  Also models `Map.set`. -/
def setProp {α : Type} : List (String × α) → String → α → List (String × α)
  | [], k, v => [(k, v)]
  | (k', v') :: rest, k, v =>
    if k' == k then (k', v) :: rest else (k', v') :: setProp rest k v

/-- `Map.get` / object read returning `Option`. -/
def mapGet {α : Type} : List (String × α) → String → Option α
  | [], _ => none
  | (k0, v0) :: rest, k => if k0 == k then some v0 else mapGet rest k

/-- `Map.has`. -/
def mapHas {α : Type} (m : List (String × α)) (k : String) : Bool :=
  (mapGet m k).isSome

/-- Literal `{` (written via its code point to keep brace characters out of
string literals throughout the file). -/
def lbraceChar : Char := Char.ofNat 123

/-- Literal `}`. -/
def rbraceChar : Char := Char.ofNat 125

/-- JS `String.prototype.toLowerCase`, modelled on ASCII letters (the engine
lowercases field names that are ASCII or Chinese; Chinese characters have no
case and are fixed by both the model and the runtime). -/
def jsToLower (s : String) : String :=
  (s.data.map Char.toLower).asString

/-- JS `String.prototype.trim`, modelled as trimming ASCII whitespace
(the engine only trims placeholder text and digit strings). -/
def jsTrim (s : String) : String :=
  (((s.data.dropWhile Char.isWhitespace).reverse.dropWhile
      Char.isWhitespace).reverse).asString

/-- Decimal value of a digit string (callers guard with `isDigitStr`);
models `parseInt(t, 10)` / `Number(t)` on all-digit input. -/
def parseDigits (s : String) : Nat :=
  s.data.foldl (fun acc c => acc * 10 + (c.toNat - 48)) 0

/-- `listStartsWith t p` : `p` is a leading segment of `t`. -/
def listStartsWith : List Char → List Char → Bool
  | _, [] => true
  | [], _ :: _ => false
  | c :: t, p :: ps => c == p && listStartsWith t ps

/-- Substring occurrence on character lists (JS `String.prototype.includes`). -/
def containsSub : List Char → List Char → Bool
  | [], pat => listStartsWith [] pat
  | c :: rest, pat => listStartsWith (c :: rest) pat || containsSub rest pat

/-- JS `s.includes(pat)`. -/
def strContains (s pat : String) : Bool :=
  containsSub s.data pat.data

/-- The `/^\d+$/` test the source applies to trimmed strings: non-empty and
all ASCII digits. -/
def isDigitStr (s : String) : Bool :=
  !s.isEmpty && s.data.all (fun c => c.isDigit)

/-- JS `Number(string)` restricted to the shapes the engine feeds it:
an all-whitespace/empty string is `0`, a digit string is its value, anything
else is `NaN` (`none`).  (Real JS also accepts signs, decimals, exponents and
hex; the engine reaches `Number` only with digit strings, resolver output
text, or joined array text, where this model and JS agree on the
digit-string / non-numeric distinction relied on by the code.) -/
def jsNumOfString (s : String) : Option Int :=
  let t := jsTrim s
  if t.isEmpty then some 0
  else if isDigitStr t then some (parseDigits t)
  else none

/-- The reserved counting field name hardcoded by the source
(`"报名单位计数"`). -/
def countingField : String := "报名单位计数"

/-- Field-name date heuristic used throughout the source:
`name.toLowerCase()` contains `'日期'`, `'date'` or `'time'`. -/
def isDateFieldName (fieldName : String) : Bool :=
  strContains (jsToLower fieldName) "日期" ||
  strContains (jsToLower fieldName) "date" ||
  strContains (jsToLower fieldName) "time"

/-- A JS `Date` built from an epoch-millisecond number is valid iff the
magnitude is at most 8.64e15 (ECMA-262 time range). -/
def validDateMillis (n : Int) : Bool :=
  n.natAbs ≤ 8640000000000000

/-- Civil date from days since the 1970-01-01 epoch (proleptic Gregorian);
the standard era-based algorithm.  All intermediate divisions act on
non-negative operands, so the rounding convention of `Int./` is immaterial. -/
def civilFromDays (z0 : Int) : Int × Nat × Nat :=
  let z := z0 + 719468
  let era : Int := (if z ≥ 0 then z else z - 146096) / 146097
  let doe : Int := z - era * 146097
  let yoe : Int := (doe - doe / 1460 + doe / 36524 - doe / 146096) / 365
  let y : Int := yoe + era * 400
  let doy : Int := doe - (365 * yoe + yoe / 4 - yoe / 100)
  let mp : Int := (5 * doy + 2) / 153
  let d : Int := doy - (153 * mp + 2) / 5 + 1
  let m : Int := if mp < 10 then mp + 3 else mp - 9
  ((if m ≤ 2 then y + 1 else y), m.toNat, d.toNat)

/-- `getFullYear`/`getMonth`+1/`getDate` of `new Date(ms)`; the model assumes
the runtime's local time zone is UTC (the engine's date rendering is
time-zone dependent in the same way at runtime). -/
def epochMillisToYMD (ms : Int) : Int × Nat × Nat :=
  civilFromDays (Int.fdiv ms 86400000)

/-- Zero-padded two-digit rendering (`String(x).padStart(2, '0')`). -/
def pad2 (n : Nat) : String :=
  if n < 10 then "0" ++ toString n else toString n

/-- The source's Chinese long date form `` `${y}年${m}月${d}日` ``. -/
def dateChinese (y : Int) (m d : Nat) : String :=
  toString y ++ "年" ++ toString m ++ "月" ++ toString d ++ "日"

/-- The source's padded date form `` `${y}-${MM}-${dd}` ``. -/
def dateStd (y : Int) (m d : Nat) : String :=
  toString y ++ "-" ++ pad2 m ++ "-" ++ pad2 d

/-- JS `new Date(string)` as used by the engine, modelled for ISO
`YYYY-MM-DD` strings only; every other string is an invalid date (`none`).
(Real JS accepts more formats; no claim in scope depends on the boundary.) -/
def parseDateString (s : String) : Option (Int × Nat × Nat) :=
  match s.data with
  | [y1, y2, y3, y4, h1, m1, m2, h2, d1, d2] =>
    if y1.isDigit && y2.isDigit && y3.isDigit && y4.isDigit &&
       h1 == '-' && m1.isDigit && m2.isDigit && h2 == '-' &&
       d1.isDigit && d2.isDigit then
      some ((parseDigits [y1, y2, y3, y4].asString : Nat),
            parseDigits [m1, m2].asString,
            parseDigits [d1, d2].asString)
    else none
  | _ => none

/-- Thousands grouping of a digit string, right to left (fuel = length). -/
def groupThousandsAux : Nat → List Char → String
  | 0, ds => ds.asString
  | fuel + 1, ds =>
    if ds.length ≤ 3 then ds.asString
    else groupThousandsAux fuel (ds.take (ds.length - 3)) ++ "," ++
         (ds.drop (ds.length - 3)).asString

/-- `Intl.NumberFormat('zh-CN', {style:'currency', currency:'CNY', 2dp})`
applied to an integer: `¥` + thousands-grouped digits + `.00` (negative
values get a leading `-`).  Fractional values never arise in the model's
integer number domain. -/
def formatCNY (n : Int) : String :=
  let digits := toString n.natAbs
  let grouped := groupThousandsAux digits.data.length digits.data
  (if n < 0 then "-" else "") ++ "¥" ++ grouped ++ ".00"

mutual
/-- JS `String(x)`.  Arrays join their elements with `","`, rendering `null`
and `undefined` elements as empty text; plain objects print as
`"[object Object]"`. -/
def jsToString : JsVal → String
  | .vNull => "null"
  | .vUndef => "undefined"
  | .vBool true => "true"
  | .vBool false => "false"
  | .vNum n => toString n
  | .vStr s => s
  | .vArr xs => String.intercalate "," (jsToStringArr xs)
  | .vObj _ => "[object Object]"

/-- Element strings for `Array.prototype.join` (`null`/`undefined` → `""`). -/
def jsToStringArr : List JsVal → List String
  | [] => []
  | x :: xs =>
    (match x with
     | .vNull => ""
     | .vUndef => ""
     | y => jsToString y) :: jsToStringArr xs
end

/-- JS `Number(x)` (`none` = `NaN`).  An array of two or more elements
stringifies with a `,`, which is never numeric, hence `NaN`; a one-element
array coerces through its element's string; a plain object stringifies to
`"[object Object]"`, hence `NaN`. -/
def jsToNumber : JsVal → Option Int
  | .vNull => some 0
  | .vUndef => none
  | .vBool b => some (if b then 1 else 0)
  | .vNum n => some n
  | .vStr s => jsNumOfString s
  | .vArr [] => some 0
  | .vArr [x] =>
    jsNumOfString (match x with
      | .vNull => ""
      | .vUndef => ""
      | y => jsToString y)
  | .vArr (_ :: _ :: _) => none
  | .vObj _ => none

/-- Minimal JSON string escaping (`"` and `\`; control-character escapes are
not modelled — no string in scope contains them). -/
def escapeJson (s : String) : String :=
  (s.data.foldr
    (fun c acc =>
      (if c == '"' then ['\\', '"']
       else if c == '\\' then ['\\', '\\']
       else [c]) ++ acc) []).asString

mutual
/-- JS `JSON.stringify` on the embedded values: `undefined`-valued object
properties are omitted, `undefined` array elements render as `null`. -/
def jsonStringify : JsVal → String
  | .vNull => "null"
  | .vUndef => "null"
  | .vBool true => "true"
  | .vBool false => "false"
  | .vNum n => toString n
  | .vStr s => "\"" ++ escapeJson s ++ "\""
  | .vArr xs => "[" ++ String.intercalate "," (jsonStringifyArr xs) ++ "]"
  | .vObj props =>
    "\x7b" ++ String.intercalate "," (jsonStringifyProps props) ++ "\x7d"

def jsonStringifyArr : List JsVal → List String
  | [] => []
  | x :: xs =>
    (match x with
     | .vUndef => "null"
     | y => jsonStringify y) :: jsonStringifyArr xs

def jsonStringifyProps : List (String × JsVal) → List String
  | [] => []
  | (k, v) :: rest =>
    match v with
    | .vUndef => jsonStringifyProps rest
    | w => ("\"" ++ escapeJson k ++ "\":" ++ jsonStringify w) ::
           jsonStringifyProps rest
end

example : jsToString (.vArr [.vNum 1, .vNull, .vStr "a"]) = "1,,a" := rfl
example : jsonStringify (.vObj [("a", .vNum 1), ("b", .vUndef)]) =
    "\x7b\"a\":1\x7d" := rfl

/-- The number branch of `formatValueByType` (source lines 1367-1383):
epoch-millisecond heuristic, date rendering by field-name keyword, else
`String(value)`. -/
def formatNumber (n : Int) (fieldName : String) : StrNum :=
  if n > 1000000000000 then
    if validDateMillis n then
      let (y, m, d) := epochMillisToYMD n
      if isDateFieldName fieldName then .s (dateChinese y m d)
      else .s (dateStd y m d)
    else .s (toString n)
  else .s (toString n)

/-- `formatValueByType` specialised to a number argument (the recursive call
at source line 1479 passes `parseInt` output back in): the leading
`null`/`undefined` tests fail, the counting-field test always takes its
numeric value, then the number branch runs. -/
def formatValueByTypeNum (n : Int) (fieldName : String) : StrNum :=
  if fieldName == countingField then .n n
  else formatNumber n fieldName

/-- One item of the text-type (`type === 1`) array join (source 1400-1405):
objects exposing a `text` property contribute `String(item.text)`, everything
else `String(item)`. -/
def textTypeItem : JsVal → String
  | .vObj ps => if hasProp ps "text" then jsToString (propOr ps "text")
                else jsToString (.vObj ps)
  | v => jsToString v

/-- The text-type (`type === 1`) branch (source 1397-1408). -/
def formatTextType (fieldValue : JsVal) : StrNum :=
  match fieldValue with
  | .vArr items => .s (String.intercalate "" (items.map textTypeItem))
  | v => .s (jsToString v)

/-- The numeric-type (`type === 2`) branch (source 1410-1435): counting-field
numeric preservation, then currency formatting, else `String(fieldValue)`.
(The source wraps the currency call in `try`; `Intl.NumberFormat` does not
throw on numbers, so the catch arm is dead and is not modelled.) -/
def formatNumericType (fieldValue : JsVal) (fieldName : String) : StrNum :=
  if fieldName == countingField then
    match jsToNumber fieldValue with
    | some n => .n n
    | none =>
      match jsToNumber fieldValue with
      | some n => .s (formatCNY n)
      | none => .s (jsToString fieldValue)
  else
    match jsToNumber fieldValue with
    | some n => .s (formatCNY n)
    | none => .s (jsToString fieldValue)

/-- The string branch of `formatValueByType` (source 1466-1498, falling
through to `String(value)` at 1501): counting-field digit preservation,
digit strings re-enter the number logic, `-`/`/` strings attempt date
parsing, otherwise the string is returned unchanged. -/
def formatString (s : String) (fieldName : String) : StrNum :=
  if fieldName == countingField && isDigitStr (jsTrim s) then
    .n (parseDigits (jsTrim s))
  else if isDigitStr (jsTrim s) then
    formatValueByTypeNum ((parseDigits (jsTrim s) : Nat) : Int) fieldName
  else if strContains s "-" || strContains s "/" then
    match parseDateString s with
    | some (y, m, d) =>
      if isDateFieldName fieldName then .s (dateChinese y m d)
      else .s (dateStd y m d)
    | none => .s s
  else .s s

mutual
/-- Embedding of `formatValueByType` (source lines 1353-1502).  The source
returns early for `null`/`undefined`, then runs the reserved-counting-field
test, then dispatches on the value's shape; with the early returns resolved,
the counting test appears once per non-null shape here.  Branch order within
each shape follows the source: numbers, objects (arrays; tagged
`{type, value}` unions; `text`/`value`/`name`/`title` attributed objects;
JSON fallback), then strings.  The `JSON.stringify` catch arm
(`'[复杂对象]'`) is unreachable on acyclic values and is not modelled. -/
def formatValueByType : JsVal → String → StrNum
  | .vNull, _ => .s ""
  | .vUndef, _ => .s ""
  | .vBool b, fieldName =>
    match (if fieldName == countingField then jsToNumber (.vBool b)
           else none) with
    | some n => .n n
    | none => .s (jsToString (.vBool b))
  | .vNum n, fieldName =>
    match (if fieldName == countingField then jsToNumber (.vNum n)
           else none) with
    | some m => .n m
    | none => formatNumber n fieldName
  | .vStr s, fieldName =>
    match (if fieldName == countingField then jsToNumber (.vStr s)
           else none) with
    | some n => .n n
    | none => formatString s fieldName
  | .vArr xs, fieldName =>
    match (if fieldName == countingField then jsToNumber (.vArr xs)
           else none) with
    | some n => .n n
    | none => .s (String.intercalate ", " (formatValueList xs fieldName))
  | .vObj props, fieldName =>
    match (if fieldName == countingField then jsToNumber (.vObj props)
           else none) with
    | some n => .n n
    | none =>
      if hasProp props "type" && hasProp props "value" then
        match propOr props "type" with
        | .vNum 1 => formatTextType (propOr props "value")
        | .vNum 2 => formatNumericType (propOr props "value") fieldName
        | _ => (formatPropValue props "value" fieldName).getD (.s "")
      else if (match getProp props "text" with
               | some v => !isUndef v
               | none => false) then
        .s (jsToString (propOr props "text"))
      else if (match getProp props "value" with
               | some v => !isUndef v
               | none => false) then
        (formatPropValue props "value" fieldName).getD (.s "")
      else if (match getProp props "name" with
               | some (.vStr _) => true
               | _ => false) then
        .s (match getProp props "name" with
            | some (.vStr nm) => nm
            | _ => "")
      else if (match getProp props "title" with
               | some (.vStr _) => true
               | _ => false) then
        .s (match getProp props "title" with
            | some (.vStr t) => t
            | _ => "")
      else .s (jsonStringify (.vObj props))

/-- Element-wise formatting for the array branch (source 1389:
`value.map(item => formatValueByType(item, fieldName)).join(', ')`; `join`
stringifies numeric results). -/
def formatValueList : List JsVal → String → List String
  | [], _ => []
  | x :: xs, fieldName =>
    strOfStrNum (formatValueByType x fieldName) :: formatValueList xs fieldName

/-- Formats the value stored under `key` (used for the recursive
`formatValueByType(value.value, fieldName)` calls at source 1438 and 1447;
`none` when the key is absent). -/
def formatPropValue : List (String × JsVal) → String → String → Option StrNum
  | [], _, _ => none
  | (k, v) :: rest, key, fieldName =>
    if k == key then some (formatValueByType v fieldName)
    else formatPropValue rest key fieldName
end

example : formatValueByType (.vStr "42") countingField = .n 42 := rfl
example : formatValueByType (.vStr "42") "x" = .s "42" := rfl
example : formatValueByType (.vObj [("text", .vStr "hi")]) "x" = .s "hi" := rfl
example : formatValueByType (.vObj [("type", .vNum 2), ("value", .vStr "1234")]) "x" =
    .s "¥1,234.00" := rfl
example : formatValueByType (.vArr [.vStr "a", .vStr "b"]) "x" = .s "a, b" := rfl

/-- Models `recordData[k] !== undefined` at source 1514/1522/1534/1541:
`some v` when the key is present with a non-`undefined` value. -/
def lookupDef (data : List (String × JsVal)) (k : String) : Option JsVal :=
  match getProp data k with
  | some v => if isUndef v then none else some v
  | none => none

/-- Embedding of `resolveFieldValue` (source lines 1510-1598): the priority
cascade — exact match, `_text`, date-specific `_chinese`/`_formatted`,
case-insensitive fuzzy passes — with `""` when nothing matches.  The logger
argument is pure diagnostics and is dropped.  The source's `as string` casts
are compile-time only; the runtime result type `string | number` is kept. -/
def resolveFieldValue (fieldName : String)
    (recordData : List (String × JsVal)) : StrNum :=
  match lookupDef recordData fieldName with
  | some value => formatValueByType value fieldName
  | none =>
  match lookupDef recordData (fieldName ++ "_text") with
  | some v => .s (jsToString v)
  | none =>
  match (if isDateFieldName fieldName then
           lookupDef recordData (fieldName ++ "_chinese")
         else none) with
  | some v => .s (jsToString v)
  | none =>
  match (if isDateFieldName fieldName then
           lookupDef recordData (fieldName ++ "_formatted")
         else none) with
  | some v => .s (jsToString v)
  | none =>
    match (if isDateFieldName fieldName then
             (recordData.map (fun p => p.1)).find? (fun key =>
               strContains (jsToLower key) (jsToLower fieldName) &&
               strContains (jsToLower key) "chinese")
           else none) with
    | some key => .s (jsToString (propOr recordData key))
    | none =>
    match (if isDateFieldName fieldName then
             (recordData.map (fun p => p.1)).find? (fun key =>
               strContains (jsToLower key) (jsToLower fieldName) &&
               strContains (jsToLower key) "formatted")
           else none) with
    | some key => .s (jsToString (propOr recordData key))
    | none =>
    match (recordData.map (fun p => p.1)).find? (fun key =>
            jsToLower key == jsToLower fieldName ++ "_text") with
    | some key => .s (jsToString (propOr recordData key))
    | none =>
    match (recordData.map (fun p => p.1)).find? (fun key =>
            jsToLower key == jsToLower fieldName) with
    | some key => formatValueByType (propOr recordData key) key
    | none => .s ""

/-- Left-to-right scan of `/\x7b([^\x7d]+)\x7d/g` (fuel ≥ list length
suffices; each step consumes at least one character).  At a `{`, the greedy
`[^\x7d]+` runs to the first `}`; a match needs a non-empty interior, else
the engine moves one position on. -/
def scanPHAux : Nat → List Char → List String
  | 0, _ => []
  | _ + 1, [] => []
  | fuel + 1, c :: rest =>
    if c == lbraceChar then
      let interior := rest.takeWhile (fun d => d != rbraceChar)
      match rest.dropWhile (fun d => d != rbraceChar) with
      | _ :: rem2 =>
        if interior.isEmpty then scanPHAux fuel rest
        else interior.asString :: scanPHAux fuel rem2
      | [] => scanPHAux fuel rest
    else scanPHAux fuel rest

/-- Embedding of `extractPlaceholders` (source lines 1346-1350):
`content.match(/\x7b([^\x7d]+)\x7d/g)` then strip one delimiter from each
end. -/
def extractPlaceholders (content : String) : List String :=
  scanPHAux content.data.length content.data

/-- `template.replace(/\x7b([^\x7d]+)\x7d/g, m => resolve(name))`: same scan
as `scanPHAux`, copying unmatched characters through. -/
def replacePHAux (resolve : String → String) :
    Nat → List Char → List Char
  | 0, cs => cs
  | _ + 1, [] => []
  | fuel + 1, c :: rest =>
    if c == lbraceChar then
      let interior := rest.takeWhile (fun d => d != rbraceChar)
      match rest.dropWhile (fun d => d != rbraceChar) with
      | _ :: rem2 =>
        if interior.isEmpty then c :: replacePHAux resolve fuel rest
        else (resolve interior.asString).data ++ replacePHAux resolve fuel rem2
      | [] => c :: replacePHAux resolve fuel rest
    else c :: replacePHAux resolve fuel rest

/-- String-level regex replace wrapper. -/
def jsReplacePlaceholders (s : String) (resolve : String → String) : String :=
  (replacePHAux resolve s.data.length s.data).asString

/-- The whole-template test `template.trim().match(/^\x7b([^\x7d]+)\x7d$/)`
(source 1605): trimmed text that is exactly one placeholder; returns the
interior. -/
def wholeSinglePlaceholder (t : String) : Option String :=
  match t.data with
  | [] => none
  | c :: rest =>
    let middle := rest.dropLast
    if c == lbraceChar && rest.getLast? == some rbraceChar &&
       !middle.isEmpty && middle.all (fun d => d != rbraceChar) then
      some middle.asString
    else none

/-- Embedding of `replaceAllPlaceholders` (source lines 1601-1627): a
whole-cell `\x7b报名单位计数\x7d` placeholder resolves and, when the resolved
string parses as a number (`Number`, so `""` gives `0`), returns that
number; every other template goes through string replacement with
`String(resolveFieldValue(..))` per match. -/
def replaceAllPlaceholders (template : String)
    (recordData : List (String × JsVal)) : StrNum :=
  match wholeSinglePlaceholder (jsTrim template) with
  | some fieldName =>
    if fieldName == countingField then
      match resolveFieldValue fieldName recordData with
      | .s sv =>
        match jsNumOfString sv with
        | some n => .n n
        | none => .s sv
      | .n n => .n n
    else
      .s (jsReplacePlaceholders template
            (fun name => strOfStrNum (resolveFieldValue name recordData)))
  | none =>
    .s (jsReplacePlaceholders template
          (fun name => strOfStrNum (resolveFieldValue name recordData)))

example : extractPlaceholders "\x7ba\x7d and \x7bb\x7d" = ["a", "b"] := rfl
example : extractPlaceholders "no placeholders" = [] := rfl
example : replaceAllPlaceholders "\x7b报名单位计数\x7d"
    [("报名单位计数", .vStr "42")] = .n 42 := rfl
example : replaceAllPlaceholders "x=\x7ba\x7d" [("a", .vStr "1")] =
    .s "x=1" := rfl

/-- Wall-clock information captured at render start (`new Date()` /
`Date.now()` in the source); passed explicitly since the model is pure. -/
structure NowInfo where
  year : Int
  month : Nat
  day : Nat
  timeStr : String
  timestamp : Int
  isoStr : String

/-- A record as the engine receives it: the `record_id`/`recordId` chain of
`getRecordId` collapsed to one optional id, the `fields` map, and the
optional `fieldMeta` display names (`fieldMeta[key].name`). -/
structure LarkRecordM where
  recordId : Option String
  fields : List (String × JsVal)
  fieldMeta : List (String × String)

/-- `getRecordId` (source 1635-1639): falsy ids (absent or `""`) give
`"unknown"`. -/
def getRecordIdM (r : LarkRecordM) : String :=
  match r.recordId with
  | some s => if s == "" then "unknown" else s
  | none => "unknown"

/-- The convenience keys seeded by `enhanceRecordData` (source 1652-1668). -/
def baseData (now : NowInfo) (recordId : String) : List (String × JsVal) :=
  [("_record_id", .vStr recordId),
   ("_currentDate", .vStr (dateStd now.year now.month now.day)),
   ("_currentDate_chinese", .vStr (dateChinese now.year now.month now.day)),
   ("_currentTime", .vStr now.timeStr),
   ("_timestamp", .vNum now.timestamp),
   ("_year", .vNum now.year),
   ("_month", .vNum now.month),
   ("_day", .vNum now.day),
   ("currentDate", .vStr (toString now.year ++ "/" ++ toString now.month ++
      "/" ++ toString now.day)),
   ("currentDate_chinese", .vStr (dateChinese now.year now.month now.day)),
   ("recordId", .vStr recordId),
   ("generateTime", .vStr now.isoStr),
   ("year", .vNum now.year),
   ("month", .vNum now.month),
   ("day", .vNum now.day)]

/-- A `string | number` formatter result as a stored JS value (the
`formatValueByType(value, key) as string` write at source 1690 stores the
runtime value unchanged, which is a number for the counting field). -/
def jsValOfStrNum : StrNum → JsVal
  | .s v => .vStr v
  | .n v => .vNum v

/-- `typeof value === 'object' && value !== null` (arrays included). -/
def isObjectLike : JsVal → Bool
  | .vObj _ => true
  | .vArr _ => true
  | _ => false

/-- The timestamp heuristic at source 1699:
`typeof value === 'number' && value > 1000000000000`. -/
def isTimestampVal : JsVal → Bool
  | .vNum n => n > 1000000000000
  | _ => false

/-- `new Date(isTimestamp ? value : String(value))` at source 1703-1704,
returning the calendar parts when the date is valid. -/
def dateOfValue (value : JsVal) : Option (Int × Nat × Nat) :=
  if isTimestampVal value then
    match value with
    | .vNum n => if validDateMillis n then some (epochMillisToYMD n) else none
    | _ => none
  else parseDateString (jsToString value)

/-- One iteration of the `Object.entries(fields).forEach` body in
`enhanceRecordData` (source 1677-1714): display-name alias, `_text` version
for object values, `_formatted`/`_chinese` versions for date-like entries. -/
def enhanceStep (fieldMeta : List (String × String))
    (acc : List (String × JsVal)) (kv : String × JsVal) :
    List (String × JsVal) :=
  let key := kv.1
  let value := kv.2
  let acc1 :=
    match mapGet fieldMeta key with
    | some displayName =>
      if displayName != "" && displayName != key then
        setProp acc displayName value
      else acc
    | none => acc
  let acc2 :=
    if isObjectLike value then
      setProp acc1 (key ++ "_text")
        (jsValOfStrNum (formatValueByType value key))
    else acc1
  if isDateFieldName key || isTimestampVal value then
    match dateOfValue value with
    | some (y, m, d) =>
      setProp (setProp acc2 (key ++ "_formatted") (.vStr (dateStd y m d)))
        (key ++ "_chinese") (.vStr (dateChinese y m d))
    | none => acc2
  else acc2

/-- Embedding of `enhanceRecordData` (source lines 1642-1718): seed the
convenience keys, spread the original fields over them, then run the
derived-key pass over every original entry. -/
def enhanceRecordData (now : NowInfo) (record : LarkRecordM) :
    List (String × JsVal) :=
  let merged := record.fields.foldl
    (fun acc kv => setProp acc kv.1 kv.2)
    (baseData now (getRecordIdM record))
  record.fields.foldl (enhanceStep record.fieldMeta) merged

/-- A worksheet cell as the grid renderer sees it: value `v`, type tag `t`,
formula `f`, cached display text `w`. -/
structure CellM where
  v : Option JsVal
  t : Option Char
  f : Option String
  w : Option String

/-- `newValue !== originalValue` at source 2004: a numeric result always
differs from the original string; a string result compares by value. -/
def replacedValueDiffers : StrNum → String → Bool
  | .n _, _ => true
  | .s sv, orig => sv != orig

/-- Per-cell substitution of `processXlsxTemplate` (source lines 1985-2043):
string-valued cells run `replaceAllPlaceholders`; numeric results set the
cell numeric (`t = 'n'`); a string result for a cell whose original text
mentions the counting placeholder is re-parsed with `Number`; formula cells
additionally refresh the display text `w`. -/
def processCellM (data : List (String × JsVal)) (cell : CellM) : CellM :=
  match cell.v with
  | some (.vStr originalValue) =>
    let newValue := replaceAllPlaceholders originalValue data
    if replacedValueDiffers newValue originalValue then
      let newCell :=
        match newValue with
        | .n num => { cell with v := some (.vNum num), t := some 'n' }
        | .s sv =>
          if strContains originalValue ("\x7b" ++ countingField ++ "\x7d") then
            match jsNumOfString sv with
            | some num => { cell with v := some (.vNum num), t := some 'n' }
            | none => { cell with v := some (.vStr sv) }
          else { cell with v := some (.vStr sv) }
      if cell.f.isSome then { newCell with w := some (strOfStrNum newValue) }
      else newCell
    else cell
  | _ => cell

/-- The sheet loop of `processXlsxTemplate` (source lines 1970-2056): only
the sheet named `Sheet1` has its cells substituted; with no `Sheet1` the
workbook passes through untouched (`批量`/`setTimeout` batching is control
flow only and is dropped). -/
def processXlsxWorkbookM (data : List (String × JsVal))
    (workbook : List (String × List CellM)) : List (String × List CellM) :=
  if (workbook.map (fun p => p.1)).contains "Sheet1" then
    workbook.map (fun p =>
      if p.1 == "Sheet1" then (p.1, p.2.map (processCellM data)) else p)
  else workbook

example :
    processCellM [("报名单位计数", .vStr "42")]
      ⟨some (.vStr "\x7b报名单位计数\x7d"), some 's', none, none⟩ =
      ⟨some (.vNum 42), some 'n', none, none⟩ := rfl

/-- One full 4-byte step of `generateTemplateHash`:
`hash = (hash * 31) ^ getUint32(i, true)` with JS `^` coercing through
`ToInt32`.  The hash lives in `[0, 2^32)` as the unsigned image of the JS
int32 bit pattern (a bijection, so cache-key equality is preserved; only the
hex spelling of negative hashes differs from JS, which no claim inspects). -/
def hashStep (hash chunk : Nat) : Nat :=
  Nat.xor ((hash * 31) % 4294967296) (chunk % 4294967296)

/-- The chunk loop of `generateTemplateHash` (source 2094-2105): 4-byte
little-endian words, with a trailing 1-3 byte remainder folded byte-wise
first. -/
def hashChunks : Nat → List Nat → Nat
  | hash, b0 :: b1 :: b2 :: b3 :: rest =>
    hashChunks (hashStep hash (b0 + b1 * 256 + b2 * 65536 + b3 * 16777216))
      rest
  | hash, [] => hash
  | hash, tailBytes =>
    hashStep hash (tailBytes.foldl (fun r b => hashStep r b) 0)

/-- Embedding of `generateTemplateHash` (source lines 2085-2113): hash of
only the first 100 bytes, rendered in hex.  (The `catch` fallback to
`Date.now()` is dead — the arithmetic cannot throw.) -/
def generateTemplateHash (templateBytes : List Nat) : String :=
  (Nat.toDigits 16 (hashChunks 0 (templateBytes.take 100))).asString

/-- The cache key `` `${templateName}_${templateHash}_${recordId}` `` built
by both renderers (source 1846 and 1944). -/
def renderCacheKey (templateName : String) (templateBytes : List Nat)
    (record : LarkRecordM) : String :=
  templateName ++ "_" ++ generateTemplateHash templateBytes ++ "_" ++
    getRecordIdM record

/-- Rendered output bytes (a `Blob`'s contents; `size` = length). -/
abbrev BlobM := List Nat

/-- Render cache (`new Map<string, any>`). -/
abbrev CacheM := List (String × BlobM)

/-- External collaborators of the grid renderer: the `xlsx` library's
workbook parser and serializer, and the error-report workbook produced by
`createErrorReportWorkbook` (its bytes abstracted as a function of record id
and error message — the report always exists because that function has its
own plain-text fallback). -/
structure XlsxEnv where
  parse : List Nat → Option (List (String × List CellM))
  write : List (String × List CellM) → BlobM
  errorWb : String → String → BlobM

/-- Embedding of `processXlsxTemplate` (source lines 1926-2078): enhance the
record, consult the cache under the content-hash key, then (on a miss)
validate the bytes, parse, substitute over `Sheet1`, serialize, and cache
non-empty output.  Every failure is caught at source 2071 and turned into an
error-report workbook, which is returned uncached, so the function is total. -/
def processXlsxTemplateM (env : XlsxEnv) (now : NowInfo)
    (templateBytes : List Nat) (record : LarkRecordM)
    (templateName : String) (cache : CacheM) : BlobM × CacheM :=
  match mapGet cache (renderCacheKey templateName templateBytes record) with
  | some cached => (cached, cache)
  | none =>
    if templateBytes.isEmpty then
      (env.errorWb (getRecordIdM record) "Excel模板文件为空或无法读取", cache)
    else
      match env.parse templateBytes with
      | none =>
        (env.errorWb (getRecordIdM record) "无法解析Excel工作簿", cache)
      | some workbook =>
        if (env.write (processXlsxWorkbookM (enhanceRecordData now record)
              workbook)).length > 0 then
          (env.write (processXlsxWorkbookM (enhanceRecordData now record)
              workbook),
           setProp cache (renderCacheKey templateName templateBytes record)
             (env.write (processXlsxWorkbookM (enhanceRecordData now record)
               workbook)))
        else
          (env.write (processXlsxWorkbookM (enhanceRecordData now record)
              workbook), cache)

/-- External collaborators of the flowed-document renderer: `PizZip.load`
success, the `Docxtemplater` render/generate step (`none` = render error),
and the `createErrorReportDoc` bytes. -/
structure DocxEnv where
  load : List Nat → Bool
  render : List Nat → List (String × JsVal) → Option BlobM
  errorDoc : String → String → BlobM

/-- Embedding of `processDocxTemplate` (source lines 1828-1920): cache hit
returns the cached blob; a zip-load failure is rethrown by the outer catch
(source 1915-1919) as an exception (`Except.error`); a render failure is
caught at 1903 and returns the error-report document uncached; success
caches non-empty output. -/
def processDocxTemplateM (env : DocxEnv) (now : NowInfo)
    (templateBytes : List Nat) (record : LarkRecordM)
    (templateName : String) (cache : CacheM) :
    Except String (BlobM × CacheM) :=
  match mapGet cache (renderCacheKey templateName templateBytes record) with
  | some cached => .ok (cached, cache)
  | none =>
    if !env.load templateBytes then
      .error "模板处理过程中发生错误: 无法解析DocX文件格式"
    else
      match env.render templateBytes (enhanceRecordData now record) with
      | some output =>
        if output.length > 0 then
          .ok (output,
            setProp cache (renderCacheKey templateName templateBytes record)
              output)
        else .ok (output, cache)
      | none => .ok (env.errorDoc (getRecordIdM record) "模板渲染错误", cache)

/-- `getRecordId` applied to the dispatcher's possibly-missing record. -/
def getRecordIdOpt : Option LarkRecordM → String
  | some r => getRecordIdM r
  | none => "unknown"

/-- The `try` body of `processTemplate` (source lines 2124-2165): the three
input validations throw; `docx` dispatch catches renderer exceptions and
substitutes an error-report document; `xlsx` dispatch never throws; an
unknown type throws. -/
def processTemplateBody (denv : DocxEnv) (xenv : XlsxEnv) (now : NowInfo)
    (templateBytes : List Nat) (templateType : String)
    (record : Option LarkRecordM) (templateName : Option String)
    (dcache xcache : CacheM) :
    Except String (BlobM × CacheM × CacheM) :=
  if templateBytes.isEmpty then .error "模板内容为空"
  else if templateType == "" then .error "未指定模板类型"
  else
    match record with
    | none => .error "记录数据为空"
    | some rec =>
      let effectiveTemplateName :=
        templateName.getD ("template-" ++ toString now.timestamp)
      if templateType == "docx" then
        match processDocxTemplateM denv now templateBytes rec
            effectiveTemplateName dcache with
        | .ok (b, dc) => .ok (b, dc, xcache)
        | .error e =>
          .ok (denv.errorDoc (getRecordIdM rec) e, dcache, xcache)
      else if templateType == "xlsx" then
        let (b, xc) := processXlsxTemplateM xenv now templateBytes rec
          effectiveTemplateName xcache
        .ok (b, dcache, xc)
      else .error ("不支持的模板类型: " ++ templateType)

/-- Embedding of `processTemplate` (source lines 2116-2179).  The outer
`catch` (source 2166-2178) turns every exception — including the
invalid-input throws — into a `createErrorReportDoc` artifact (whose own
fallback chain is total), so the dispatcher never re-raises. -/
def processTemplateM (denv : DocxEnv) (xenv : XlsxEnv) (now : NowInfo)
    (templateBytes : List Nat) (templateType : String)
    (record : Option LarkRecordM) (templateName : Option String)
    (dcache xcache : CacheM) :
    Except String (BlobM × CacheM × CacheM) :=
  match processTemplateBody denv xenv now templateBytes templateType record
      templateName dcache xcache with
  | .ok r => .ok r
  | .error e =>
    .ok (denv.errorDoc (getRecordIdOpt record) e, dcache, xcache)

/-- Heap-model values: like `JsVal` but objects and arrays live behind heap
references, so reference cycles (`a.value = a`) are representable. -/
inductive HVal where
  | hNull
  | hUndef
  | hBool (b : Bool)
  | hNum (n : Int)
  | hStr (s : String)
  | hRef (a : Nat)

/-- A heap node: an array's element list or an object's property list. -/
inductive HeapNode where
  | arrN (elems : List HVal)
  | objN (props : List (String × HVal))

/-- A heap: node at address `a` is `heap.get? a`. -/
abbrev HeapM := List HeapNode

/-- Property lookup in the heap model. -/
def getPropH : List (String × HVal) → String → Option HVal
  | [], _ => none
  | (k0, v0) :: rest, k => if k0 == k then some v0 else getPropH rest k

/-- JS property access in the heap model. -/
def propOrH (props : List (String × HVal)) (k : String) : HVal :=
  (getPropH props k).getD HVal.hUndef

/-- `undefined` test in the heap model. -/
def isUndefH : HVal → Bool
  | .hUndef => true
  | _ => false

/-- `String(x)` in the heap model, with fuel for reference chasing
(`Array.prototype.join` is cycle-safe in JS, rendering a revisited array as
empty text, which fuel exhaustion approximates; not on any claim's path). -/
def jsToStringFuel (heap : HeapM) : Nat → HVal → String
  | 0, _ => ""
  | _ + 1, .hNull => "null"
  | _ + 1, .hUndef => "undefined"
  | _ + 1, .hBool true => "true"
  | _ + 1, .hBool false => "false"
  | _ + 1, .hNum n => toString n
  | _ + 1, .hStr s => s
  | fuel + 1, .hRef a =>
    match heap.get? a with
    | some (.objN _) => "[object Object]"
    | some (.arrN xs) =>
      String.intercalate ","
        (xs.map (fun x =>
          match x with
          | .hNull => ""
          | .hUndef => ""
          | y => jsToStringFuel heap fuel y))
    | none => ""

/-- `Number(x)` in the heap model.  A one-element array's string coercion is
approximated as `NaN` (not on any claim's path; multi-element arrays and
plain objects are `NaN` exactly as in the tree model). -/
def jsToNumberH (heap : HeapM) : HVal → Option Int
  | .hNull => some 0
  | .hUndef => none
  | .hBool b => some (if b then 1 else 0)
  | .hNum n => some n
  | .hStr s => jsNumOfString s
  | .hRef a =>
    match heap.get? a with
    | some (.arrN []) => some 0
    | some (.arrN _) => none
    | some (.objN _) => none
    | none => none

mutual
/-- `formatValueByType` over the heap model, with `fuel` bounding the
recursion depth the JS call stack would take: `none` means the source
function does not return within that depth (the engine has no depth bound of
its own, so `∀ fuel, … = none` exhibits non-termination / stack overflow).
Branch structure mirrors `formatValueByType` exactly; the `JSON.stringify`
fallback collapses structure the cycle theorem never reaches and is
approximated by the source's own catch text `'[复杂对象]'`. -/
def formatValueFuel (heap : HeapM) : Nat → HVal → String → Option StrNum
  | 0, _, _ => none
  | _ + 1, .hNull, _ => some (.s "")
  | _ + 1, .hUndef, _ => some (.s "")
  | fuel + 1, .hBool b, fieldName =>
    match (if fieldName == countingField then jsToNumberH heap (.hBool b)
           else none) with
    | some n => some (.n n)
    | none => some (.s (jsToStringFuel heap (fuel + 1) (.hBool b)))
  | _ + 1, .hNum n, fieldName =>
    match (if fieldName == countingField then jsToNumberH heap (.hNum n)
           else none) with
    | some m => some (.n m)
    | none => some (formatNumber n fieldName)
  | _ + 1, .hStr s, fieldName =>
    match (if fieldName == countingField then jsToNumberH heap (.hStr s)
           else none) with
    | some n => some (.n n)
    | none => some (formatString s fieldName)
  | fuel + 1, .hRef a, fieldName =>
    match (if fieldName == countingField then jsToNumberH heap (.hRef a)
           else none) with
    | some n => some (.n n)
    | none =>
      match heap.get? a with
        | none => some (.s "")
        | some (.arrN xs) =>
          match formatListFuel heap fuel xs fieldName with
          | some parts => some (.s (String.intercalate ", " parts))
          | none => none
        | some (.objN props) =>
          if (getPropH props "type").isSome && (getPropH props "value").isSome
          then
            match propOrH props "type" with
            | .hNum 1 =>
              some (.s (jsToStringFuel heap fuel (propOrH props "value")))
            | .hNum 2 =>
              (match jsToNumberH heap (propOrH props "value") with
               | some n =>
                 if fieldName == countingField then some (.n n)
                 else some (.s (formatCNY n))
               | none =>
                 some (.s (jsToStringFuel heap fuel (propOrH props "value"))))
            | _ => formatValueFuel heap fuel (propOrH props "value") fieldName
          else if (match getPropH props "text" with
                   | some v => !isUndefH v
                   | none => false) then
            some (.s (jsToStringFuel heap fuel (propOrH props "text")))
          else if (match getPropH props "value" with
                   | some v => !isUndefH v
                   | none => false) then
            formatValueFuel heap fuel (propOrH props "value") fieldName
          else if (match getPropH props "name" with
                   | some (.hStr _) => true
                   | _ => false) then
            some (.s (match getPropH props "name" with
                      | some (.hStr nm) => nm
                      | _ => ""))
          else if (match getPropH props "title" with
                   | some (.hStr _) => true
                   | _ => false) then
            some (.s (match getPropH props "title" with
                      | some (.hStr t) => t
                      | _ => ""))
          else some (.s "[复杂对象]")
termination_by fuel _v _fn => (fuel, 0)

/-- Element-wise formatting over the heap model (`none` when any element
exhausts the fuel). -/
def formatListFuel (heap : HeapM) : Nat → List HVal → String →
    Option (List String)
  | _, [], _ => some []
  | fuel, x :: xs, fieldName =>
    match formatValueFuel heap fuel x fieldName with
    | none => none
    | some r =>
      match formatListFuel heap fuel xs fieldName with
      | none => none
      | some rest => some (strOfStrNum r :: rest)
termination_by fuel xs _fn => (fuel, xs.length + 1)
end

/-- The cyclic record value `const a = \x7b\x7d; a.value = a`: a heap whose
single object's `value` property refers back to itself. -/
def cyclicHeap : HeapM := [.objN [("value", .hRef 0)]]

/-! Concrete fixtures used by counterexamples and witnesses. -/

/-- A fixed wall clock for concrete runs. -/
def cNow : NowInfo :=
  ⟨2026, 10, 12, "00:00:00", 1760227200000, "2026-10-12T00:00:00.000Z"⟩

/-- A record whose only field maps the counting field to the string "42". -/
def c4record : LarkRecordM :=
  ⟨some "rec1", [("报名单位计数", .vStr "42")], []⟩

/-- Concrete docx collaborators: loads succeed, rendering yields `[1]`,
error reports are `[7]`. -/
def cDenv : DocxEnv := ⟨fun _ => true, fun _ _ => some [1], fun _ _ => [7]⟩

/-- Concrete xlsx collaborators: parsing yields an empty `Sheet1` workbook,
serialization yields `[1]`, error reports are `[8]`. -/
def cXenv : XlsxEnv := ⟨fun _ => some [("Sheet1", [])], fun _ => [1], fun _ _ => [8]⟩

/-- C8: `extractPlaceholders` scans left to right and returns each
placeholder interior in order of appearance with duplicates preserved; in
particular the spec's two examples hold. -/
theorem c8_extractPlaceholders_ordered :
    extractPlaceholders "\x7ba\x7d and \x7bb\x7d" = ["a", "b"] ∧
    extractPlaceholders "no placeholders" = [] ∧
    extractPlaceholders "\x7ba\x7d\x7bb\x7d\x7ba\x7d" = ["a", "b", "a"] :=
  ⟨rfl, rfl, rfl⟩

/-- C4: for a grid cell whose entire text is the single counting-field
placeholder and a record mapping that field to the string "42", the rendered
cell's value is the number 42 with the cell type marked numeric. -/
theorem c4_numeric_preservation :
    processCellM (enhanceRecordData cNow c4record)
      ⟨some (.vStr "\x7b报名单位计数\x7d"), some 's', none, none⟩ =
      ⟨some (.vNum 42), some 'n', none, none⟩ := rfl

/-- C1 counterexample: invalid top-level inputs do not raise.  With empty
template bytes (first conjunct) or an unknown template type (second
conjunct) the dispatcher still returns a blob — the error-report document
`[7]` — instead of propagating an exception. -/
theorem c1_invalid_input_no_exception :
    processTemplateM cDenv cXenv cNow [] "docx" (some c4record) none [] [] =
      .ok ([7], [], []) ∧
    processTemplateM cDenv cXenv cNow [9] "pdf" (some c4record) none [] [] =
      .ok ([7], [], []) :=
  ⟨rfl, rfl⟩

/-- C1 (amended): `processTemplate` never raises on any input — every call,
valid or invalid, returns a byte blob (rendered output or a fallback
error-report artifact). -/
theorem c1_processTemplate_never_raises (denv : DocxEnv) (xenv : XlsxEnv)
    (now : NowInfo) (templateBytes : List Nat) (templateType : String)
    (record : Option LarkRecordM) (templateName : Option String)
    (dcache xcache : CacheM) :
    ∃ r, processTemplateM denv xenv now templateBytes templateType record
        templateName dcache xcache = .ok r := by
  unfold processTemplateM
  cases processTemplateBody denv xenv now templateBytes templateType record
      templateName dcache xcache with
  | ok r => exact ⟨r, rfl⟩
  | error e => exact ⟨_, rfl⟩

/-- C2 counterexample: the render cache is not bounded by 50 — a sequence of
51 puts with distinct keys leaves 51 entries in the cache (the caches are
plain `Map`s; `set` never evicts). -/
theorem c2_cache_unbounded_counterexample :
    ((List.range 51).foldl
      (fun m i => setProp m (toString i) ([] : BlobM)) ([] : CacheM)).length
      = 51 := by decide

/-- C6 counterexample: `resolveFieldValue` does not always return a string —
for the reserved counting field resolving against a context holding the
digit string "42" yields the number 42. -/
theorem c6_resolve_returns_number :
    StrNum.isStr
      (resolveFieldValue "报名单位计数" [("报名单位计数", .vStr "42")]) =
      false := rfl

/-- C7 counterexample: a derived `_text` key can overwrite an original key.
With original fields `a` (an object) and `a_text` (the string "orig"), the
enhanced context maps `a_text` to the formatted text of `a`, not to the
record's original value. -/
theorem c7_enhance_overwrites_original :
    getProp (⟨some "r", [("a", .vObj [("text", .vStr "t")]),
        ("a_text", .vStr "orig")], []⟩ : LarkRecordM).fields "a_text" =
      some (.vStr "orig") ∧
    getProp (enhanceRecordData cNow
      ⟨some "r", [("a", .vObj [("text", .vStr "t")]),
        ("a_text", .vStr "orig")], []⟩) "a_text" = some (.vStr "t") :=
  ⟨rfl, rfl⟩

/-- C5 counterexample: sheets other than `Sheet1` are skipped.  A workbook
with an empty `Sheet1` and a `Sheet2` whose cell is the placeholder
`\x7ba\x7d` passes through with the `Sheet2` cell untouched, although the
resolver would have substituted "X" for it. -/
theorem c5_sheet2_skipped :
    processXlsxWorkbookM [("a", .vStr "X")]
      [("Sheet1", []),
       ("Sheet2", [⟨some (.vStr "\x7ba\x7d"), none, none, none⟩])] =
      [("Sheet1", []),
       ("Sheet2", [⟨some (.vStr "\x7ba\x7d"), none, none, none⟩])] ∧
    replaceAllPlaceholders "\x7ba\x7d" [("a", .vStr "X")] = .s "X" :=
  ⟨rfl, rfl⟩

/-- C3: the formatter's recursive unwrapping is not depth-bounded.  On the
cyclic value `a = \x7bvalue: a\x7d` the `'value' in value` unwrapping branch
recurses on the same reference for every depth budget, so the source
function never returns on cyclic input (a stack overflow at runtime), in
contradiction with the claimed depth-bounded totality. -/
theorem c3_cyclic_value_never_returns :
    ∀ fuel, formatValueFuel cyclicHeap fuel (.hRef 0) "备注" = none := by
  intro fuel
  induction fuel with
  | zero => simp [formatValueFuel]
  | succ n ih =>
    simp [formatValueFuel, cyclicHeap, getPropH, propOrH, isUndefH,
      jsToNumberH, countingField]
    exact ih

/-- C9: formatting a three-element sequence equals the element-wise formats
joined with `", "` (numeric element results are stringified by `join`, just
as JS `+` would stringify them). -/
theorem c9_format_three_element_seq :
    ∀ a b c name, formatValueByType (.vArr [a, b, c]) name =
      .s (strOfStrNum (formatValueByType a name) ++ ", " ++
          strOfStrNum (formatValueByType b name) ++ ", " ++
          strOfStrNum (formatValueByType c name)) := by
  intro a b c name
  simp [formatValueByType, formatValueList, jsToNumber, String.intercalate,
    String.intercalate.go, String.append_assoc]

/-- `Map.set` then `Map.get`: reading the written key sees the new value,
any other key is untouched. -/
theorem mapGet_setProp {α : Type} (m : List (String × α)) (k : String)
    (v : α) (k' : String) :
    mapGet (setProp m k v) k' = if k = k' then some v else mapGet m k' := by
  induction m with
  | nil =>
    by_cases h : k = k' <;> simp [mapGet, setProp, h]
  | cons a rest ih =>
    obtain ⟨k0, v0⟩ := a
    by_cases h : k0 = k
    · subst h
      by_cases h' : k0 = k' <;> simp [mapGet, setProp, h']
    · by_cases h' : k0 = k'
      · subst h'
        have hne : ¬ k = k0 := fun hh => h hh.symm
        simp [mapGet, setProp, h, hne]
      · simp [mapGet, setProp, h, h', ih]

/-- `Map.set` grows the map by one entry exactly when the key is new. -/
theorem setProp_length {α : Type} (m : List (String × α)) (k : String)
    (v : α) :
    (setProp m k v).length =
      if mapHas m k then m.length else m.length + 1 := by
  induction m with
  | nil => simp [setProp, mapHas, mapGet]
  | cons a rest ih =>
    obtain ⟨k0, v0⟩ := a
    by_cases h : k0 = k
    · simp [setProp, mapHas, mapGet, h]
    · simp only [setProp, mapHas, mapGet] at *
      simp [h, ih, mapHas]
      split <;> rfl

/-- C2 (amended): the render caches are plain unbounded `Map`s — `set` never
evicts: a put with a fresh key grows the cache by exactly one with no
capacity bound, and every key present before a put is still present after
it. -/
theorem c2_cache_unbounded_no_eviction (m : CacheM) (k : String)
    (v : BlobM) :
    ((setProp m k v).length =
      if mapHas m k then m.length else m.length + 1) ∧
    (∀ k', mapHas m k' = true → mapHas (setProp m k v) k' = true) := by
  refine ⟨setProp_length m k v, fun k' h => ?_⟩
  rw [mapHas, mapGet_setProp]
  split
  · rfl
  · rwa [mapHas] at h

/-- Witness for `c2_cache_unbounded_no_eviction` at a concrete cache. -/
theorem c2_cache_witness :
    mapHas [("a", ([] : BlobM))] "a" = true ∧
    mapHas (setProp [("a", ([] : BlobM))] "b" []) "a" = true :=
  ⟨by decide,
   (c2_cache_unbounded_no_eviction [("a", [])] "b" []).2 "a" (by decide)⟩

/-- C5 (amended): only the sheet named `Sheet1` is substituted.  Every other
sheet passes through unchanged, and a `Sheet1` present in the workbook has
exactly its cells run through the per-cell substitution. -/
theorem c5_only_sheet1_processed (data : List (String × JsVal))
    (wb : List (String × List CellM)) (nm : String) (ws : List CellM) :
    (nm ≠ "Sheet1" → (nm, ws) ∈ wb →
      (nm, ws) ∈ processXlsxWorkbookM data wb) ∧
    (("Sheet1", ws) ∈ wb →
      ("Sheet1", ws.map (processCellM data)) ∈
        processXlsxWorkbookM data wb) := by
  by_cases hc : (wb.map (fun p => p.1)).contains "Sheet1"
  · constructor
    · intro hnm hmem
      simp only [processXlsxWorkbookM, hc, if_pos]
      exact List.mem_map.mpr ⟨(nm, ws), hmem, by simp [hnm]⟩
    · intro hmem
      simp only [processXlsxWorkbookM, hc, if_pos]
      exact List.mem_map.mpr ⟨("Sheet1", ws), hmem, by simp⟩
  · constructor
    · intro _ hmem
      simpa only [processXlsxWorkbookM, hc, if_neg, Bool.false_eq_true,
        not_false_iff] using hmem
    · intro hmem
      have hmm : "Sheet1" ∈ wb.map (fun p => p.1) :=
        List.mem_map.mpr ⟨("Sheet1", ws), hmem, rfl⟩
      exact absurd (List.elem_iff.mpr hmm) hc

/-- Witness for `c5_only_sheet1_processed` at a concrete two-sheet
workbook. -/
theorem c5_sheet1_witness :
    ("S2", ([] : List CellM)) ∈
      processXlsxWorkbookM [] [("Sheet1", []), ("S2", [])] ∧
    ("Sheet1", ([] : List CellM).map (processCellM [])) ∈
      processXlsxWorkbookM [] [("Sheet1", []), ("S2", [])] :=
  ⟨(c5_only_sheet1_processed [] [("Sheet1", []), ("S2", [])] "S2" []).1
      (by decide) (List.mem_cons_of_mem _ (List.mem_cons_self _ _)),
   (c5_only_sheet1_processed [] [("Sheet1", []), ("S2", [])] "S2" []).2
      (List.mem_cons_self _ _)⟩

/-- An anonymous record (`getRecordId` falls back to "unknown"). -/
def c10rec : LarkRecordM := ⟨none, [], []⟩

/-- C10: the render-cache key depends on the template bytes only through
their first 100 bytes, in both renderers.  If two templates agree on those
bytes and a first call through a renderer (grid or flowed-document) left its
output in the cache, a second call through the same renderer with the other
template (same name and record) returns the first call's cached output and
leaves the cache unchanged. -/
theorem c10_cache_first100 (denv : DocxEnv) (xenv : XlsxEnv) (now : NowInfo)
    (rec : LarkRecordM) (nm : String) (t1 t2 : List Nat)
    (h100 : t1.take 100 = t2.take 100) :
    (∀ (cache0 : CacheM) (b1 : BlobM) (c1 : CacheM),
      processXlsxTemplateM xenv now t1 rec nm cache0 = (b1, c1) →
      mapHas c1 (renderCacheKey nm t1 rec) = true →
      processXlsxTemplateM xenv now t2 rec nm c1 = (b1, c1)) ∧
    (∀ (cache0 : CacheM) (b1 : BlobM) (c1 : CacheM),
      processDocxTemplateM denv now t1 rec nm cache0 = .ok (b1, c1) →
      mapHas c1 (renderCacheKey nm t1 rec) = true →
      processDocxTemplateM denv now t2 rec nm c1 = .ok (b1, c1)) := by
  have hkey : renderCacheKey nm t2 rec = renderCacheKey nm t1 rec := by
    unfold renderCacheKey generateTemplateHash
    rw [h100]
  constructor
  · intro cache0 b1 c1 h1 h2
    have hget : mapGet c1 (renderCacheKey nm t1 rec) = some b1 := by
      unfold processXlsxTemplateM at h1
      rcases hm : mapGet cache0 (renderCacheKey nm t1 rec) with _ | cached
      · rw [hm] at h1
        simp only at h1
        split at h1
        · obtain ⟨hb, hc⟩ := Prod.mk.injEq .. ▸ h1
          subst hc
          rw [mapHas, hm] at h2
          simp at h2
        · split at h1
          · obtain ⟨hb, hc⟩ := Prod.mk.injEq .. ▸ h1
            subst hc
            rw [mapHas, hm] at h2
            simp at h2
          · split at h1
            · obtain ⟨hb, hc⟩ := Prod.mk.injEq .. ▸ h1
              subst hb
              subst hc
              rw [mapGet_setProp]
              simp
            · obtain ⟨hb, hc⟩ := Prod.mk.injEq .. ▸ h1
              subst hc
              rw [mapHas, hm] at h2
              simp at h2
      · rw [hm] at h1
        simp only at h1
        obtain ⟨hb, hc⟩ := Prod.mk.injEq .. ▸ h1
        subst hb
        subst hc
        exact hm
    unfold processXlsxTemplateM
    rw [hkey, hget]
  · intro cache0 b1 c1 h1 h2
    have hget : mapGet c1 (renderCacheKey nm t1 rec) = some b1 := by
      unfold processDocxTemplateM at h1
      rcases hm : mapGet cache0 (renderCacheKey nm t1 rec) with _ | cached
      · rw [hm] at h1
        simp only at h1
        split at h1
        · simp at h1
        · split at h1
          · split at h1
            · injection h1 with h1p
              obtain ⟨hb, hc⟩ := Prod.mk.injEq .. ▸ h1p
              subst hb
              subst hc
              rw [mapGet_setProp]
              simp
            · injection h1 with h1p
              obtain ⟨hb, hc⟩ := Prod.mk.injEq .. ▸ h1p
              subst hc
              rw [mapHas, hm] at h2
              simp at h2
          · injection h1 with h1p
            obtain ⟨hb, hc⟩ := Prod.mk.injEq .. ▸ h1p
            subst hc
            rw [mapHas, hm] at h2
            simp at h2
      · rw [hm] at h1
        simp only at h1
        injection h1 with h1p
        obtain ⟨hb, hc⟩ := Prod.mk.injEq .. ▸ h1p
        subst hb
        subst hc
        exact hm
    unfold processDocxTemplateM
    rw [hkey, hget]

/-- Witness for `c10_cache_first100`: concrete first renders through each
renderer cache `[1]`, and the second calls are served from the caches. -/
theorem c10_cache_first100_witness :
    (processXlsxTemplateM cXenv cNow [0] c10rec "tpl"
        (processXlsxTemplateM cXenv cNow [0] c10rec "tpl" []).2 =
      ((processXlsxTemplateM cXenv cNow [0] c10rec "tpl" []).1,
       (processXlsxTemplateM cXenv cNow [0] c10rec "tpl" []).2)) ∧
    processDocxTemplateM cDenv cNow [0] c10rec "tpl"
        [("tpl_0_unknown", [1])] = .ok ([1], [("tpl_0_unknown", [1])]) :=
  ⟨(c10_cache_first100 cDenv cXenv cNow c10rec "tpl" [0] [0] rfl).1
      [] _ _ rfl (by decide),
   (c10_cache_first100 cDenv cXenv cNow c10rec "tpl" [0] [0] rfl).2
      [] [1] [("tpl_0_unknown", [1])] rfl (by decide)⟩

/-- The number branch always yields a string. -/
theorem formatNumber_isStr (n : Int) (f : String) :
    (formatNumber n f).isStr = true := by
  unfold formatNumber
  repeat' split
  all_goals rfl

/-- The text-type branch always yields a string. -/
theorem formatTextType_isStr (v : JsVal) :
    (formatTextType v).isStr = true := by
  unfold formatTextType
  split <;> rfl

/-- The numeric-type branch yields a string away from the counting field. -/
theorem formatNumericType_isStr (v : JsVal) (f : String)
    (h : f ≠ countingField) :
    (formatNumericType v f).isStr = true := by
  unfold formatNumericType
  rw [if_neg (by simpa using h)]
  split <;> rfl

/-- The string branch yields a string away from the counting field. -/
theorem formatString_isStr (s : String) (f : String)
    (h : f ≠ countingField) :
    (formatString s f).isStr = true := by
  unfold formatString formatValueByTypeNum
  rw [if_neg (show ¬ ((f == countingField) && isDigitStr (jsTrim s)) = true
        by simp [h])]
  split
  · rw [if_neg (by simpa using h)]
    exact formatNumber_isStr _ _
  · repeat' split
    all_goals rfl

/-- A successful `formatPropValue` lookup formats some member's value. -/
theorem formatPropValue_mem (props : List (String × JsVal)) (key f : String)
    (r : StrNum) (h : formatPropValue props key f = some r) :
    ∃ k w, (k, w) ∈ props ∧ r = formatValueByType w f := by
  induction props with
  | nil => simp [formatPropValue] at h
  | cons a rest ih =>
    obtain ⟨k0, w0⟩ := a
    by_cases hk : k0 == key
    · rw [formatPropValue, if_pos hk] at h
      exact ⟨k0, w0, List.mem_cons_self _ _, (Option.some.injEq .. ▸ h).symm⟩
    · rw [formatPropValue, if_neg hk] at h
      obtain ⟨k, w, hm, hr⟩ := ih h
      exact ⟨k, w, List.mem_cons_of_mem _ hm, hr⟩

/-- An object member's value is structurally smaller than the object. -/
theorem sizeOf_mem_vObj {props : List (String × JsVal)} {k : String}
    {w : JsVal} (h : (k, w) ∈ props) :
    sizeOf w < sizeOf (JsVal.vObj props) := by
  have h1 := List.sizeOf_lt_of_mem h
  have h2 : sizeOf (k, w) = 1 + sizeOf k + sizeOf w := rfl
  simp [JsVal.vObj.sizeOf_spec]
  omega

/-- Bounded-size induction: away from the counting field the formatter is
string-valued (every numeric return in the source sits under a
`fieldName === "报名单位计数"` guard, and recursive unwrapping passes the
field name through unchanged). -/
theorem formatValueByType_isStr_aux : ∀ (N : Nat) (v : JsVal) (f : String),
    sizeOf v < N → f ≠ countingField →
    (formatValueByType v f).isStr = true := by
  intro N
  induction N with
  | zero => intro v f h _; omega
  | succ N ih =>
    intro v f hlt hne
    have hbeq : (f == countingField) = false := by simpa using hne
    cases v with
    | vNull => rfl
    | vUndef => rfl
    | vBool b => simp [formatValueByType, hbeq, StrNum.isStr]
    | vNum n => simp [formatValueByType, hbeq, formatNumber_isStr]
    | vStr s => simp [formatValueByType, hbeq, formatString_isStr _ _ hne]
    | vArr xs => simp [formatValueByType, hbeq, StrNum.isStr]
    | vObj props =>
      have hprop : ∀ r, formatPropValue props "value" f = some r →
          r.isStr = true := by
        intro r hr
        obtain ⟨k, w, hm, hreq⟩ := formatPropValue_mem props "value" f r hr
        subst hreq
        exact ih w f (by have := sizeOf_mem_vObj hm; omega) hne
      simp only [formatValueByType, hbeq, Bool.false_eq_true, if_false]
      split
      · split
        · exact formatTextType_isStr _
        · exact formatNumericType_isStr _ _ hne
        · rcases hfp : formatPropValue props "value" f with _ | r
          · simp [hfp, StrNum.isStr]
          · simp [hfp, hprop r hfp]
      · split
        · rfl
        · split
          · rcases hfp : formatPropValue props "value" f with _ | r
            · simp [hfp, StrNum.isStr]
            · simp [hfp, hprop r hfp]
          · split
            · rfl
            · split
              · rfl
              · rfl

/-- Away from the counting field the formatter is string-valued. -/
theorem formatValueByType_isStr (v : JsVal) (f : String)
    (h : f ≠ countingField) : (formatValueByType v f).isStr = true :=
  formatValueByType_isStr_aux (sizeOf v + 1) v f (by omega) h

/-- All of the resolver cascade's lookups fail: every scrutinee of
`resolveFieldValue`'s five steps is `none`. -/
def noResolveMatch (fieldName : String)
    (data : List (String × JsVal)) : Bool :=
  (lookupDef data fieldName).isNone &&
  (lookupDef data (fieldName ++ "_text")).isNone &&
  (if isDateFieldName fieldName then
     lookupDef data (fieldName ++ "_chinese") else none).isNone &&
  (if isDateFieldName fieldName then
     lookupDef data (fieldName ++ "_formatted") else none).isNone &&
  (if isDateFieldName fieldName then
     (data.map (fun p => p.1)).find? (fun key =>
       strContains (jsToLower key) (jsToLower fieldName) &&
       strContains (jsToLower key) "chinese")
   else none).isNone &&
  (if isDateFieldName fieldName then
     (data.map (fun p => p.1)).find? (fun key =>
       strContains (jsToLower key) (jsToLower fieldName) &&
       strContains (jsToLower key) "formatted")
   else none).isNone &&
  ((data.map (fun p => p.1)).find? (fun key =>
     jsToLower key == jsToLower fieldName ++ "_text")).isNone &&
  ((data.map (fun p => p.1)).find? (fun key =>
     jsToLower key == jsToLower fieldName)).isNone

/-- C6 (amended): the resolver follows the fixed cascade deterministically
and totally; when no step matches it returns `""`, and its result is a
string for every placeholder whose lowercased name is not the reserved
counting field (for the counting field it can return a number — see the
counterexample). -/
theorem c6_resolve_cascade (fieldName : String)
    (data : List (String × JsVal)) :
    (noResolveMatch fieldName data = true →
      resolveFieldValue fieldName data = .s "") ∧
    (jsToLower fieldName ≠ countingField →
      (resolveFieldValue fieldName data).isStr = true) := by
  constructor
  · intro hnm
    unfold noResolveMatch at hnm
    simp only [Bool.and_eq_true, Option.isNone_iff_eq_none] at hnm
    obtain ⟨⟨⟨⟨⟨⟨⟨h1, h2⟩, h3⟩, h4⟩, h5⟩, h6⟩, h7⟩, h8⟩ := hnm
    unfold resolveFieldValue
    simp only [h1, h2, h3, h4, h5, h6, h7, h8]
  · intro h
    have hlc : jsToLower countingField = countingField := by decide
    have hne : fieldName ≠ countingField := by
      intro he
      exact h (by rw [he, hlc])
    unfold resolveFieldValue
    split
    · exact formatValueByType_isStr _ _ hne
    · split
      · rfl
      · split
        · rfl
        · split
          · rfl
          · split
            · rfl
            · split
              · rfl
              · split
                · rfl
                · split
                  case _ key hfind =>
                    have hp := List.find?_some hfind
                    have hkey : jsToLower key = jsToLower fieldName := by
                      simpa using hp
                    have hkne : key ≠ countingField := by
                      intro he
                      rw [he, hlc] at hkey
                      exact h hkey.symm
                    exact formatValueByType_isStr _ _ hkne
                  case _ => rfl

/-- Witness for `c6_resolve_cascade` at a concrete empty context. -/
theorem c6_resolve_witness :
    (noResolveMatch "x" [] = true ∧ jsToLower "x" ≠ countingField) ∧
    resolveFieldValue "x" [] = .s "" ∧
    (resolveFieldValue "x" []).isStr = true :=
  ⟨⟨by decide, by decide⟩, (c6_resolve_cascade "x" []).1 (by decide),
   (c6_resolve_cascade "x" []).2 (by decide)⟩

/-- `getProp` is the `JsVal` instance of the generic map read. -/
theorem getProp_eq_mapGet (m : List (String × JsVal)) (k : String) :
    getProp m k = mapGet m k := by
  induction m with
  | nil => rfl
  | cons a rest ih =>
    obtain ⟨k0, v0⟩ := a
    by_cases h : k0 == k <;> simp [getProp, mapGet, h, ih]

theorem isSome_mapGet_setProp {α : Type} (m : List (String × α))
    (k : String) (v : α) (k' : String)
    (h : (mapGet m k').isSome = true) :
    (mapGet (setProp m k v) k').isSome = true := by
  rw [mapGet_setProp]
  split <;> simp [h]

def spreadFields (fields base : List (String × JsVal)) :
    List (String × JsVal) :=
  fields.foldl (fun acc kv => setProp acc kv.1 kv.2) base

theorem spread_pres_isSome (fields : List (String × JsVal)) :
    ∀ (base : List (String × JsVal)) (k : String),
    (mapGet base k).isSome = true →
    (mapGet (spreadFields fields base) k).isSome = true := by
  induction fields with
  | nil => intro base k h; exact h
  | cons kv rest ih =>
    intro base k h
    exact ih _ k (isSome_mapGet_setProp _ _ _ _ h)

theorem spread_isSome (fields : List (String × JsVal)) :
    ∀ (base : List (String × JsVal)) (k : String),
    (mapGet fields k).isSome = true →
    (mapGet (spreadFields fields base) k).isSome = true := by
  induction fields with
  | nil => intro base k h; simp [mapGet] at h
  | cons kv rest ih =>
    intro base k h
    obtain ⟨k0, v0⟩ := kv
    by_cases hk : k0 == k
    · have hb : (mapGet (setProp base k0 v0) k).isSome = true := by
        rw [mapGet_setProp]
        simp only [beq_iff_eq] at hk
        simp [hk]
      exact spread_pres_isSome rest _ k hb
    · rw [mapGet, if_neg hk] at h
      exact ih _ k h

theorem spread_untouched (fields : List (String × JsVal)) :
    ∀ (base : List (String × JsVal)) (k : String),
    (∀ kv ∈ fields, kv.1 ≠ k) →
    mapGet (spreadFields fields base) k = mapGet base k := by
  induction fields with
  | nil => intro base k _; rfl
  | cons kv rest ih =>
    intro base k hall
    obtain ⟨k0, v0⟩ := kv
    have h0 : k0 ≠ k := hall (k0, v0) (List.mem_cons_self _ _)
    have : mapGet (spreadFields rest (setProp base k0 v0)) k =
        mapGet (setProp base k0 v0) k :=
      ih _ k (fun kv hm => hall kv (List.mem_cons_of_mem _ hm))
    rw [spreadFields] at this ⊢
    simp only [List.foldl_cons]
    rw [this, mapGet_setProp, if_neg h0]

theorem spread_val (fields : List (String × JsVal)) :
    ∀ (base : List (String × JsVal)) (k : String) (v : JsVal),
    (fields.map Prod.fst).Nodup →
    mapGet fields k = some v →
    mapGet (spreadFields fields base) k = some v := by
  induction fields with
  | nil => intro base k v _ h; simp [mapGet] at h
  | cons kv rest ih =>
    intro base k v hnd h
    obtain ⟨k0, v0⟩ := kv
    simp only [List.map_cons, List.nodup_cons] at hnd
    obtain ⟨hnotin, hnd'⟩ := hnd
    by_cases hk : k0 == k
    · simp only [beq_iff_eq] at hk
      subst hk
      rw [mapGet, if_pos (by simp)] at h
      have hall : ∀ kv ∈ rest, kv.1 ≠ k0 := by
        intro kv hm he
        exact hnotin (he ▸ List.mem_map.mpr ⟨kv, hm, rfl⟩)
      rw [spreadFields, List.foldl_cons]
      rw [show List.foldl (fun acc kv => setProp acc kv.1 kv.2)
            (setProp base k0 v0) rest =
          spreadFields rest (setProp base k0 v0) from rfl]
      rw [spread_untouched rest _ k0 hall, mapGet_setProp, if_pos rfl, h]
    · rw [mapGet, if_neg hk] at h
      rw [spreadFields, List.foldl_cons]
      exact ih _ k v hnd' h

theorem mapGet_setProp_ne {α : Type} (m : List (String × α)) (k' : String)
    (v : α) (k : String) (h : k' ≠ k) :
    mapGet (setProp m k' v) k = mapGet m k := by
  rw [mapGet_setProp, if_neg h]

def writesOf (meta : List (String × String)) (kv : String × JsVal) :
    List String :=
  (match mapGet meta kv.1 with
   | some displayName =>
     if displayName != "" && displayName != kv.1 then [displayName] else []
   | none => []) ++
  (if isObjectLike kv.2 then [kv.1 ++ "_text"] else []) ++
  (if isDateFieldName kv.1 || isTimestampVal kv.2 then
     match dateOfValue kv.2 with
     | some _ => [kv.1 ++ "_formatted", kv.1 ++ "_chinese"]
     | none => []
   else [])

theorem enhanceStep_pres_isSome (meta : List (String × String))
    (acc : List (String × JsVal)) (kv : String × JsVal) (k : String)
    (h : (mapGet acc k).isSome = true) :
    (mapGet (enhanceStep meta acc kv) k).isSome = true := by
  simp only [enhanceStep]
  repeat' split
  all_goals repeat (first | exact h | apply isSome_mapGet_setProp)

theorem enhanceStep_untouched (meta : List (String × String))
    (acc : List (String × JsVal)) (kv : String × JsVal) (k : String)
    (hk : k ∉ writesOf meta kv) :
    mapGet (enhanceStep meta acc kv) k = mapGet acc k := by
  obtain ⟨key, value⟩ := kv
  unfold writesOf at hk
  simp only [List.mem_append, not_or] at hk
  obtain ⟨⟨hk1, hk2⟩, hk3⟩ := hk
  simp only [enhanceStep]
  have step2 : ∀ (b : List (String × JsVal)),
      mapGet b k = mapGet acc k →
      mapGet (if isObjectLike value = true then
          setProp b (key ++ "_text")
            (jsValOfStrNum (formatValueByType value key))
        else b) k = mapGet acc k := by
    intro b hb
    by_cases hobj : isObjectLike value
    · simp only [hobj, if_true] at hk2 ⊢
      simp only [List.mem_singleton] at hk2
      rw [mapGet_setProp_ne _ _ _ _ (fun he => hk2 he.symm), hb]
    · simp only [hobj, if_false, Bool.false_eq_true]
      exact hb
  have step3 : ∀ (b : List (String × JsVal)),
      mapGet b k = mapGet acc k →
      mapGet (if (isDateFieldName key || isTimestampVal value) = true then
          match dateOfValue value with
          | some (y, m, d) =>
            setProp (setProp b (key ++ "_formatted")
                (JsVal.vStr (dateStd y m d)))
              (key ++ "_chinese") (JsVal.vStr (dateChinese y m d))
          | none => b
        else b) k = mapGet acc k := by
    intro b hb
    by_cases hdate : (isDateFieldName key || isTimestampVal value)
    · simp only [hdate, if_true] at hk3 ⊢
      rcases hdv : dateOfValue value with _ | ymd
      · simpa only [hdv] using hb
      · obtain ⟨y, m, d⟩ := ymd
        simp only [hdv] at hk3 ⊢
        simp only [List.mem_cons, List.not_mem_nil, not_or, or_false] at hk3
        obtain ⟨hf, hc⟩ := hk3
        rw [mapGet_setProp_ne _ _ _ _ (fun he => hc he.symm),
          mapGet_setProp_ne _ _ _ _ (fun he => hf he.symm), hb]
    · simp only [hdate, if_false, Bool.false_eq_true]
      exact hb
  apply step3
  apply step2
  rcases hm : mapGet meta key with _ | dn
  · simp only [hm]
  · simp only [hm] at hk1
    simp only [hm]
    by_cases hdn : (dn != "" && dn != key)
    · simp only [hdn, if_true] at hk1 ⊢
      simp only [List.mem_singleton] at hk1
      rw [mapGet_setProp_ne _ _ _ _ (fun he => hk1 he.symm)]
    · simp only [hdn, if_false, Bool.false_eq_true]

theorem foldl_enhance_pres (fields : List (String × JsVal)) :
    ∀ (meta : List (String × String)) (acc : List (String × JsVal))
      (k : String),
    (mapGet acc k).isSome = true →
    (mapGet (fields.foldl (enhanceStep meta) acc) k).isSome = true := by
  induction fields with
  | nil => intro meta acc k h; exact h
  | cons kv rest ih =>
    intro meta acc k h
    exact ih meta _ k (enhanceStep_pres_isSome meta acc kv k h)

theorem foldl_enhance_untouched (fields : List (String × JsVal)) :
    ∀ (meta : List (String × String)) (acc : List (String × JsVal))
      (k : String),
    (∀ kv ∈ fields, k ∉ writesOf meta kv) →
    mapGet (fields.foldl (enhanceStep meta) acc) k = mapGet acc k := by
  induction fields with
  | nil => intro meta acc k _; rfl
  | cons kv rest ih =>
    intro meta acc k hall
    simp only [List.foldl_cons]
    rw [ih meta _ k (fun kv' hm => hall kv' (List.mem_cons_of_mem _ hm)),
      enhanceStep_untouched meta acc kv k (hall kv (List.mem_cons_self _ _))]

theorem c7_enhance_superset (now : NowInfo) (record : LarkRecordM) (k : String) :
    ((getProp record.fields k).isSome = true →
      (getProp (enhanceRecordData now record) k).isSome = true) ∧
    (∀ v, getProp record.fields k = some v →
      (record.fields.map Prod.fst).Nodup →
      (∀ kv ∈ record.fields, k ∉ writesOf record.fieldMeta kv) →
      getProp (enhanceRecordData now record) k = some v) := by
  constructor
  · intro h
    rw [getProp_eq_mapGet] at h ⊢
    show (mapGet (record.fields.foldl (enhanceStep record.fieldMeta)
        (spreadFields record.fields
          (baseData now (getRecordIdM record)))) k).isSome = true
    exact foldl_enhance_pres _ _ _ _ (spread_isSome _ _ _ h)
  · intro v hv hnd hw
    rw [getProp_eq_mapGet] at hv ⊢
    show mapGet (record.fields.foldl (enhanceStep record.fieldMeta)
        (spreadFields record.fields
          (baseData now (getRecordIdM record)))) k = some v
    rw [foldl_enhance_untouched _ _ _ _ hw]
    exact spread_val _ _ _ _ hnd hv

/-- A one-field record used by the `c7` witness. -/
def c7wrec : LarkRecordM := ⟨some "r", [("a", .vStr "1")], []⟩

/-- Witness for `c7_enhance_superset` at a concrete collision-free record. -/
theorem c7_enhance_witness :
    (getProp (enhanceRecordData cNow c7wrec) "a").isSome = true ∧
    getProp (enhanceRecordData cNow c7wrec) "a" = some (.vStr "1") :=
  ⟨(c7_enhance_superset cNow c7wrec "a").1 (by rfl),
   (c7_enhance_superset cNow c7wrec "a").2 (.vStr "1") rfl (by decide)
     (by
       intro kv hkv
       have hx : kv = ("a", JsVal.vStr "1") := List.mem_singleton.mp hkv
       subst hx
       decide)⟩
